import Mathlib

/-!
Verification of the project-file serialization layer (gui/projectfile.cpp,
lib/projectfile.h).  The repository holds two implementations of the same
`ProjectFile` class: a tinyxml2/DOM variant (first part of
gui/projectfile.cpp) and a Qt streaming-reader variant (second part).  Both
are embedded here: the DOM variant in namespace `Dom`, the streaming variant
in namespace `Qt`.  Shared data model and XML document model come first.
-/

/-! ## Element and attribute name constants (as in gui/projectfile.cpp) -/

def ProjectElementName : String := "project"
def ProjectVersionAttrib : String := "version"
def ProjectFileVersion : String := "1"
def BuildDirElementName : String := "builddir"
def ImportProjectElementName : String := "importproject"
def AnalyzeAllVsConfigsElementName : String := "analyze-all-vs-configs"
def IncludeDirElementName : String := "includedir"
def DirElementName : String := "dir"
def DirNameAttrib : String := "name"
def DefinesElementName : String := "defines"
def DefineName : String := "define"
def DefineNameAttrib : String := "name"
def UndefinesElementName : String := "undefines"
def UndefineName : String := "undefine"
def PathsElementName : String := "paths"
def PathName : String := "dir"
def PathNameAttrib : String := "name"
def RootPathName : String := "root"
def RootPathNameAttrib : String := "name"
def IgnoreElementName : String := "ignore"
def IgnorePathName : String := "path"
def IgnorePathNameAttrib : String := "name"
def ExcludeElementName : String := "exclude"
def ExcludePathName : String := "path"
def ExcludePathNameAttrib : String := "name"
def LibrariesElementName : String := "libraries"
def LibraryElementName : String := "library"
def PlatformElementName : String := "platform"
def SuppressionsElementName : String := "suppressions"
def SuppressionElementName : String := "suppression"
def SuppressionFileNameAttrib : String := "fileName"
def SuppressionLineNumberAttrib : String := "lineNumber"
def SuppressionSymbolNameAttrib : String := "symbolName"
def AddonElementName : String := "addon"
def AddonsElementName : String := "addons"
def ToolElementName : String := "tool"
def ToolsElementName : String := "tools"
def TagsElementName : String := "tags"
def TagElementName : String := "tag"

/-- Modelled from the spec: the two fixed external tool names
(CLANG_ANALYZER / CLANG_TIDY macros from gui/common.h, which is not under
src/).  The spec calls them the analyzer-tool name and the linter-tool name;
their exact spelling is irrelevant to every claim, only that they are two
distinct fixed strings. -/
def CLANG_ANALYZER : String := "clang-analyzer"

/-- Modelled from the spec: see `CLANG_ANALYZER`. -/
def CLANG_TIDY : String := "clang-tidy"

/-- Modelled from the spec: the "no line" sentinel
`Suppressions::Suppression::NO_LINE` from lib/suppressions.h (not under
src/): "sentinel \"no line\" when absent/non-positive". -/
def NO_LINE : Int := -1

/-- `Suppressions::Suppression` value type (lib/suppressions.h is not under
src/; the four fields are those listed by the spec and used by
gui/projectfile.cpp). -/
structure Suppression where
  errorId : String := ""
  fileName : String := ""
  lineNumber : Int := NO_LINE
  symbolName : String := ""
  deriving DecidableEq, Repr

/-- The in-memory configuration model: the fields of class `ProjectFile`
(lib/projectfile.h).  `mFilename` is omitted: it is not part of the
document and never read from or written to it. -/
structure ProjectFile where
  rootPath : String := ""
  buildDir : String := ""
  importProject : String := ""
  analyzeAllVsConfigs : Bool := true
  includeDirs : List String := []
  defines : List String := []
  undefines : List String := []
  paths : List String := []
  excludedPaths : List String := []
  libraries : List String := []
  platform : String := ""
  suppressions : List Suppression := []
  addons : List String := []
  clangAnalyzer : Bool := false
  clangTidy : Bool := false
  tags : List String := []
  deriving DecidableEq, Repr

/-- `ProjectFile::clear()` (identical in both variants): resets every field
except `mTags`, which the source never clears. -/
def ProjectFile.clear (pf : ProjectFile) : ProjectFile :=
  { rootPath := ""
    buildDir := ""
    importProject := ""
    analyzeAllVsConfigs := true
    includeDirs := []
    defines := []
    undefines := []
    paths := []
    excludedPaths := []
    libraries := []
    platform := ""
    suppressions := []
    addons := []
    clangAnalyzer := false
    clangTidy := false
    tags := pf.tags }

/-- The all-defaults model produced by the default constructor (which calls
`clear()` on a value-initialized object, so `mTags` is empty too). -/
def ProjectFile.default : ProjectFile := {}

/-- `ProjectFile::getClangAnalyzer()` (lib/projectfile.h line 154): the body
is literally `return false; //mClangAnalyzer;`. -/
def ProjectFile.getClangAnalyzer (_ : ProjectFile) : Bool :=
  false

/-- `ProjectFile::setClangAnalyzer(bool)` (lib/projectfile.h). -/
def ProjectFile.setClangAnalyzer (c : Bool) (pf : ProjectFile) : ProjectFile :=
  { pf with clangAnalyzer := c }

/-- `ProjectFile::getClangTidy()` (lib/projectfile.h). -/
def ProjectFile.getClangTidy (pf : ProjectFile) : Bool :=
  pf.clangTidy

/-- `ProjectFile::getAddonsAndTools()` (both variants): the addons list with
the analyzer tool name appended when `mClangAnalyzer` is set, then the tidy
tool name when `mClangTidy` is set. -/
def ProjectFile.getAddonsAndTools (pf : ProjectFile) : List String :=
  pf.addons
    ++ (if pf.clangAnalyzer then [CLANG_ANALYZER] else [])
    ++ (if pf.clangTidy then [CLANG_TIDY] else [])

/-! ## XML document model

An XML element: name, attributes in document order, direct text content
(`""` meaning no character data — an XML text node is never empty), child
elements in document order. -/

structure XElem where
  name : String
  attrs : List (String × String)
  text : String
  children : List XElem

/-- Attribute lookup, first match in document order (shared by both the
modelled tinyxml2 accessors and the Qt `QXmlStreamAttributes::value`). -/
def attrLookup (attrs : List (String × String)) (key : String) : Option String :=
  match attrs with
  | [] => none
  | (k, v) :: rest => if k == key then some v else attrLookup rest key

/-- `ProjectFile::charPointerToString` as documented in lib/projectfile.h:
the string for a possibly-null `char` pointer, empty when null. -/
def charPointerToString (cString : Option String) : String :=
  match cString with
  | none => ""
  | some s => s

/-- Minimal decimal integer parser used to model attribute-to-int
conversion (`XMLElement::IntAttribute` in the DOM variant, `QString::toInt`
in the streaming variant). -/
def parseInt (s : String) : Option Int :=
  let digits (cs : List Char) : Option Nat :=
    if cs.isEmpty then none
    else if cs.all (fun c => c.isDigit) then
      some (cs.foldl (fun acc c => acc * 10 + (c.toNat - 48)) 0)
    else none
  match s.toList with
  | '-' :: rest => (digits rest).map (fun n => -(n : Int))
  | cs => (digits cs).map (fun n => (n : Int))

namespace Dom

/-! ### tinyxml2 accessors.

tinyxml2 itself is vendored outside src/ (externals/tinyxml per the
readme), so these accessors are modelled from the spec's description of the
decodings that use them. -/

/-- `XMLElement::FirstChildElement(name)`: first child element with the
given name. -/
def firstChildElement (e : XElem) (n : String) : Option XElem :=
  e.children.find? (fun c => c.name == n)

/-- The `NextSiblingElement(n)` walk: successive first-matches of `n` among
the following siblings, i.e. all following siblings named `n` in order. -/
def nextSiblingChain (n : String) : List XElem → List XElem
  | [] => []
  | c :: rest =>
    if c.name == n then c :: nextSiblingChain n rest else nextSiblingChain n rest

/-- The C++ iteration pattern
`x = parent->FirstChildElement(first); while (x) { ...; x = x->NextSiblingElement(next); }`:
the first child named `first`, followed by all later siblings named `next`.
In the source `first = next` everywhere except the undefines loop, which
advances with the wrapper name. -/
def siblingChain (first next : String) : List XElem → List XElem
  | [] => []
  | c :: rest =>
    if c.name == first then c :: nextSiblingChain next rest
    else siblingChain first next rest

/-- Modelled from the spec: `XMLElement::Attribute(name, default)` as used in
the DOM read ("read a single named attribute; empty/missing attribute leaves
the field at its default"): the attribute's value, or the default when the
attribute is missing. -/
def xmlAttribute (e : XElem) (key dflt : String) : String :=
  match attrLookup e.attrs key with
  | some v => v
  | none => dflt

/-- `XMLElement::Attribute(name)` (single-argument form): the attribute's
value, or null when missing. -/
def xmlAttributeOpt (e : XElem) (key : String) : Option String :=
  attrLookup e.attrs key

/-- `XMLElement::GetText()`: the element's direct text content, null when
there is none; the null case is rendered as `""` (`charPointerToString`
semantics, lib/projectfile.h). -/
def xmlGetText (e : XElem) : String :=
  e.text

/-- Modelled from the spec: `XMLElement::BoolText()` as used by the
analyze-all-vs-configs decoding — "text compared case-sensitively against
the literal \"true\"; a present element with any text other than \"true\" is
treated as false"; with no text the tinyxml2 default (false) applies. -/
def xmlBoolText (e : XElem) : Bool :=
  if e.text == "" then false else e.text == "true"

/-- `XMLElement::IntAttribute(name, default)`: the attribute parsed as an
integer, or the default when the attribute is missing or unparseable. -/
def xmlIntAttribute (e : XElem) (key : String) (dflt : Int) : Int :=
  match (attrLookup e.attrs key).bind parseInt with
  | some v => v
  | none => dflt

/-! ### The DOM variant's read and write (first half of gui/projectfile.cpp). -/

/-- One `suppression` element decoded as in the DOM read loop
(gui/projectfile.cpp lines 190-202). -/
def readSuppression (e : XElem) : Suppression :=
  { errorId := charPointerToString (some (xmlGetText e))
    fileName := charPointerToString (xmlAttributeOpt e SuppressionFileNameAttrib)
    lineNumber := xmlIntAttribute e SuppressionLineNumberAttrib NO_LINE
    symbolName := charPointerToString (xmlAttributeOpt e SuppressionSymbolNameAttrib) }

/-- `ProjectFile::read` of the DOM variant (gui/projectfile.cpp lines
100-234).  The input is the result of `tinyxml2::XMLDocument::LoadFile`:
`none` when the file failed to load or parse, otherwise the document's
single root element.  Returns the C++ bool result and the target model
after the call.  Note the source order: a load failure returns before
`clear()`; a missing project element returns after it. -/
def read (pf : ProjectFile) (doc : Option XElem) : Bool × ProjectFile :=
  match doc with
  | none => (false, pf)
  | some rootElem =>
    let pf := pf.clear
    match (if rootElem.name == ProjectElementName then some rootElem else none) with
    | none => (false, pf)
    | some project =>
      let pf :=
        match firstChildElement project RootPathName with
        | some root => { pf with rootPath := xmlAttribute root RootPathNameAttrib "" }
        | none => pf
      let pf :=
        match firstChildElement project BuildDirElementName with
        | some buildDir => { pf with buildDir := charPointerToString (some (xmlGetText buildDir)) }
        | none => pf
      let pf :=
        match firstChildElement project PlatformElementName with
        | some platform => { pf with platform := charPointerToString (some (xmlGetText platform)) }
        | none => pf
      let pf :=
        match firstChildElement project ImportProjectElementName with
        | some importProject =>
          { pf with importProject := charPointerToString (some (xmlGetText importProject)) }
        | none => pf
      let pf :=
        match firstChildElement project AnalyzeAllVsConfigsElementName with
        | some analyzeAllVsConfigs =>
          { pf with analyzeAllVsConfigs := xmlBoolText analyzeAllVsConfigs }
        | none => pf
      let pf :=
        match firstChildElement project IncludeDirElementName with
        | some includeDirList =>
          { pf with includeDirs := pf.includeDirs ++
              ((siblingChain DirElementName DirElementName includeDirList.children).map
                (fun d => xmlAttribute d DirNameAttrib "")) }
        | none => pf
      let pf :=
        match firstChildElement project DefinesElementName with
        | some defineList =>
          { pf with defines := pf.defines ++
              ((siblingChain DefineName DefineName defineList.children).map
                (fun d => xmlAttribute d DefineNameAttrib "")) }
        | none => pf
      let pf :=
        match firstChildElement project UndefinesElementName with
        | some undefineList =>
          { pf with undefines := pf.undefines ++
              ((siblingChain UndefineName UndefinesElementName undefineList.children).map
                (fun u => charPointerToString (some (xmlGetText u)))) }
        | none => pf
      let pf :=
        match firstChildElement project PathsElementName with
        | some pathList =>
          { pf with paths := pf.paths ++
              ((siblingChain PathName PathName pathList.children).map
                (fun p => xmlAttribute p PathNameAttrib "")) }
        | none => pf
      let pf :=
        match firstChildElement project ExcludeElementName with
        | some excludeList =>
          { pf with excludedPaths := pf.excludedPaths ++
              ((siblingChain ExcludePathName ExcludePathName excludeList.children).map
                (fun p => xmlAttribute p ExcludePathNameAttrib "")) }
        | none => pf
      let pf :=
        match firstChildElement project LibrariesElementName with
        | some libraryList =>
          { pf with libraries := pf.libraries ++
              ((siblingChain LibraryElementName LibraryElementName libraryList.children).map
                (fun l => charPointerToString (some (xmlGetText l)))) }
        | none => pf
      let pf :=
        match firstChildElement project SuppressionsElementName with
        | some suppressionList =>
          { pf with suppressions := pf.suppressions ++
              ((siblingChain SuppressionElementName SuppressionElementName
                  suppressionList.children).map readSuppression) }
        | none => pf
      let pf :=
        match firstChildElement project AddonsElementName with
        | some addonList =>
          { pf with addons := pf.addons ++
              ((siblingChain AddonElementName AddonElementName addonList.children).map
                (fun a => charPointerToString (some (xmlGetText a)))) }
        | none => pf
      let pf :=
        match firstChildElement project ToolsElementName with
        | some toolList =>
          (siblingChain ToolElementName ToolElementName toolList.children).foldl
            (fun pf tool =>
              let toolName := charPointerToString (some (xmlGetText tool))
              { pf with
                clangAnalyzer := pf.clangAnalyzer || (toolName == CLANG_ANALYZER)
                clangTidy := pf.clangTidy || (toolName == CLANG_TIDY) }) pf
        | none => pf
      let pf :=
        match firstChildElement project TagsElementName with
        | some tagList =>
          { pf with tags := pf.tags ++
              ((siblingChain TagElementName TagElementName tagList.children).map
                (fun t => charPointerToString (some (xmlGetText t)))) }
        | none => pf
      (true, pf)

/-- `ProjectFile::writeStringList` (gui/projectfile.cpp lines 416-428):
nothing when the list is empty, otherwise one wrapper element with one text
child per string. -/
def writeStringList (stringlist : List String)
    (startelementname stringelementname : String) : List XElem :=
  if stringlist = [] then []
  else
    [{ name := startelementname, attrs := [], text := "",
       children := stringlist.map
         (fun s => { name := stringelementname, attrs := [], text := s, children := [] }) }]

/-- One `suppression` element as emitted by `ProjectFile::write`
(gui/projectfile.cpp lines 368-383): each attribute only when meaningful,
the text only when the error id is non-empty (`""` models absent text). -/
def writeSuppression (sup : Suppression) : XElem :=
  { name := SuppressionElementName
    attrs :=
      (if sup.fileName = "" then [] else [(SuppressionFileNameAttrib, sup.fileName)])
      ++ (if sup.lineNumber > 0 then [(SuppressionLineNumberAttrib, toString sup.lineNumber)] else [])
      ++ (if sup.symbolName = "" then [] else [(SuppressionSymbolNameAttrib, sup.symbolName)])
    text := sup.errorId
    children := [] }

/-- `ProjectFile::write` of the DOM variant (gui/projectfile.cpp lines
281-400), as the produced `project` root element (BOM, declaration and the
file save are I/O framing with no bearing on the document's content). -/
def write (pf : ProjectFile) : XElem :=
  { name := ProjectElementName
    attrs := [(ProjectVersionAttrib, ProjectFileVersion)]
    text := ""
    children :=
      (if pf.rootPath = "" then []
       else [{ name := RootPathName, attrs := [(RootPathNameAttrib, pf.rootPath)],
               text := "", children := [] }])
      ++ (if pf.buildDir = "" then []
          else [{ name := BuildDirElementName, attrs := [], text := pf.buildDir, children := [] }])
      ++ (if pf.platform = "" then []
          else [{ name := PlatformElementName, attrs := [], text := pf.platform, children := [] }])
      ++ (if pf.importProject = "" then []
          else [{ name := ImportProjectElementName, attrs := [],
                  text := pf.importProject, children := [] }])
      ++ [{ name := AnalyzeAllVsConfigsElementName, attrs := [],
            text := if pf.analyzeAllVsConfigs then "true" else "false", children := [] }]
      ++ (if pf.includeDirs = [] then []
          else [{ name := IncludeDirElementName, attrs := [], text := "",
                  children := pf.includeDirs.map
                    (fun d => { name := DirElementName, attrs := [(DirNameAttrib, d)],
                                text := "", children := [] }) }])
      ++ (if pf.defines = [] then []
          else [{ name := DefinesElementName, attrs := [], text := "",
                  children := pf.defines.map
                    (fun d => { name := DefineName, attrs := [(DefineNameAttrib, d)],
                                text := "", children := [] }) }])
      ++ writeStringList pf.undefines UndefinesElementName UndefineName
      ++ (if pf.paths = [] then []
          else [{ name := PathsElementName, attrs := [], text := "",
                  children := pf.paths.map
                    (fun p => { name := PathName, attrs := [(PathNameAttrib, p)],
                                text := "", children := [] }) }])
      ++ (if pf.excludedPaths = [] then []
          else [{ name := ExcludeElementName, attrs := [], text := "",
                  children := pf.excludedPaths.map
                    (fun p => { name := ExcludePathName, attrs := [(ExcludePathNameAttrib, p)],
                                text := "", children := [] }) }])
      ++ writeStringList pf.libraries LibrariesElementName LibraryElementName
      ++ (if pf.suppressions = [] then []
          else [{ name := SuppressionsElementName, attrs := [], text := "",
                  children := pf.suppressions.map writeSuppression }])
      ++ writeStringList pf.addons AddonsElementName AddonElementName
      ++ writeStringList
           ((if pf.clangAnalyzer then [CLANG_ANALYZER] else [])
             ++ (if pf.clangTidy then [CLANG_TIDY] else []))
           ToolsElementName ToolElementName
      ++ writeStringList pf.tags TagsElementName TagElementName }

end Dom

/-! ## The streaming variant (second half of gui/projectfile.cpp)

`QXmlStreamReader` tokens relevant to the source's handlers: every other
token kind (StartDocument, Comment, DTD, ...) is explicitly "not handled"
in every switch of the source, so the stream is modelled by the three
handled kinds.  A well-formed document's token stream is generated from an
`XElem` tree by `XElem.tokens`. -/

inductive Token where
  | startElement (name : String) (attrs : List (String × String))
  | endElement (name : String)
  | characters (text : String)
  deriving DecidableEq, Repr

mutual

/-- Token stream of an element: start tag, its character data (when any),
its children's streams, end tag. -/
def XElem.tokens : XElem → List Token
  | { name := n, attrs := a, text := t, children := cs } =>
    Token.startElement n a ::
      ((if t = "" then [] else [Token.characters t])
        ++ tokensList cs ++ [Token.endElement n])

/-- Token stream of a sibling list, in document order. -/
def tokensList : List XElem → List Token
  | [] => []
  | c :: cs => XElem.tokens c ++ tokensList cs

end

namespace Qt

/-- `QString::toInt`: the parsed value, 0 when the string is not a valid
integer. -/
def qToInt (s : String) : Int :=
  match parseInt s with
  | some v => v
  | none => 0

/-- The do-while token scan shared by `readBuildDir`, `readImportProject`,
`readPlatform` and `readAnalyzeAllVsConfigs`: consume tokens until the
first Characters token (returned, without consuming the following end tag,
since the Characters case falls through to the return) or the first
EndElement token (consumed, nothing returned); StartElement and the
"not handled" kinds are skipped. -/
def scanText : List Token → Option String × List Token
  | [] => (none, [])
  | Token.characters s :: rest => (some s, rest)
  | Token.endElement _ :: rest => (none, rest)
  | Token.startElement _ _ :: rest => scanText rest

/-- The loop body shared by `readIncludeDirs`, `readDefines` and
`readCheckPaths`: until the EndElement named `wrapName` (consumed), collect
the `attrKey` attribute of every StartElement named `childName`, skipping
entries whose attribute is empty or missing. -/
def scanAttrList (childName wrapName attrKey : String) :
    List Token → List String × List Token
  | [] => ([], [])
  | Token.startElement n attrs :: rest =>
    if n == childName then
      let nm :=
        match attrLookup attrs attrKey with
        | some v => v
        | none => ""
      let (l, r) := scanAttrList childName wrapName attrKey rest
      (if nm == "" then l else nm :: l, r)
    else scanAttrList childName wrapName attrKey rest
  | Token.endElement n :: rest =>
    if n == wrapName then ([], rest) else scanAttrList childName wrapName attrKey rest
  | Token.characters _ :: rest => scanAttrList childName wrapName attrKey rest

/-- `ProjectFile::readExcludes` loop (gui/projectfile.cpp lines 850-894):
like `scanAttrList`, but the current `path` child branch and the deprecated
legacy `path` child branch both collect into the same list, and both the
`ignore` and the `exclude` end tags terminate. -/
def scanExcludes : List Token → List String × List Token
  | [] => ([], [])
  | Token.startElement n attrs :: rest =>
    if n == ExcludePathName then
      let nm :=
        match attrLookup attrs ExcludePathNameAttrib with
        | some v => v
        | none => ""
      let (l, r) := scanExcludes rest
      (if nm == "" then l else nm :: l, r)
    else if n == IgnorePathName then
      let nm :=
        match attrLookup attrs IgnorePathNameAttrib with
        | some v => v
        | none => ""
      let (l, r) := scanExcludes rest
      (if nm == "" then l else nm :: l, r)
    else scanExcludes rest
  | Token.endElement n :: rest =>
    if n == IgnoreElementName then ([], rest)
    else if n == ExcludeElementName then ([], rest)
    else scanExcludes rest
  | Token.characters _ :: rest => scanExcludes rest

/-- `ProjectFile::readStringList` loop (gui/projectfile.cpp lines 966-1002):
on a StartElement named `elementname`, consume the next token and collect
it when it is Characters (a child with no text is consumed and skipped);
stop at the first EndElement whose name differs from `elementname` (the
wrapper's end tag, consumed). -/
def readStringListScan (elementname : String) : List Token → List String × List Token
  | [] => ([], [])
  | Token.startElement n _ :: rest =>
    if n == elementname then
      match rest with
      | Token.characters s :: rest2 =>
        let (l, r) := readStringListScan elementname rest2
        (s :: l, r)
      | _ :: rest2 => readStringListScan elementname rest2
      | [] => ([], [])
    else readStringListScan elementname rest
  | Token.endElement n :: rest =>
    if n != elementname then ([], rest) else readStringListScan elementname rest
  | Token.characters _ :: rest => readStringListScan elementname rest

/-- `ProjectFile::readSuppressions` loop (gui/projectfile.cpp lines
921-963): on each `suppression` StartElement, take the three optional
attributes, then consume one token and use it as the error id when it is
Characters; the entry is appended in every case.  The first EndElement not
named `suppression` returns. -/
def readSuppressionsScan : List Token → List Suppression × List Token
  | [] => ([], [])
  | Token.startElement n attrs :: rest =>
    if n == SuppressionElementName then
      let sup : Suppression :=
        { fileName :=
            match attrLookup attrs "fileName" with
            | some v => v
            | none => ""
          lineNumber :=
            match attrLookup attrs "lineNumber" with
            | some v => qToInt v
            | none => NO_LINE
          symbolName :=
            match attrLookup attrs "symbolName" with
            | some v => v
            | none => "" }
      match rest with
      | Token.characters s :: rest2 =>
        let (l, r) := readSuppressionsScan rest2
        ({ sup with errorId := s } :: l, r)
      | _ :: rest2 =>
        let (l, r) := readSuppressionsScan rest2
        (sup :: l, r)
      | [] => ([sup], [])
    else readSuppressionsScan rest
  | Token.endElement n :: rest =>
    if n != SuppressionElementName then ([], rest) else readSuppressionsScan rest
  | Token.characters _ :: rest => readSuppressionsScan rest

/-- `ProjectFile::readRootPath` (gui/projectfile.cpp lines 655-661): the
`name` attribute of the current element, stored only when non-empty. -/
def readRootPath (pf : ProjectFile) (attrs : List (String × String)) : ProjectFile :=
  let nm :=
    match attrLookup attrs RootPathNameAttrib with
    | some v => v
    | none => ""
  if nm == "" then pf else { pf with rootPath := nm }

/-- The per-element dispatch performed on a StartElement inside the project
element, collecting the source's sequential `if (insideProject && name == X)`
branches (gui/projectfile.cpp lines 560-629).  The element names are
pairwise distinct string literals, so at most one branch fires and the
chain of `else if`s is equivalent to the source's sequence of `if`s.
Returns the updated model and the unconsumed remainder of the stream. -/
def dispatchStart (pf : ProjectFile) (name : String) (attrs : List (String × String))
    (rest : List Token) : ProjectFile × List Token :=
  if name == RootPathName then
    (readRootPath pf attrs, rest)
  else if name == BuildDirElementName then
    let r := scanText rest
    ({ pf with buildDir := charPointerToString r.1 }, r.2)
  else if name == PathsElementName then
    let r := scanAttrList PathName PathsElementName PathNameAttrib rest
    ({ pf with paths := pf.paths ++ r.1 }, r.2)
  else if name == ImportProjectElementName then
    let r := scanText rest
    ({ pf with importProject := charPointerToString r.1 }, r.2)
  else if name == AnalyzeAllVsConfigsElementName then
    let r := scanText rest
    (match r.1 with
     | some s => { pf with analyzeAllVsConfigs := s == "true" }
     | none => pf, r.2)
  else if name == IncludeDirElementName then
    let r := scanAttrList DirElementName IncludeDirElementName DirNameAttrib rest
    ({ pf with includeDirs := pf.includeDirs ++ r.1 }, r.2)
  else if name == DefinesElementName then
    let r := scanAttrList DefineName DefinesElementName DefineNameAttrib rest
    ({ pf with defines := pf.defines ++ r.1 }, r.2)
  else if name == UndefinesElementName then
    let r := readStringListScan UndefineName rest
    ({ pf with undefines := pf.undefines ++ r.1 }, r.2)
  else if name == ExcludeElementName then
    let r := scanExcludes rest
    ({ pf with excludedPaths := pf.excludedPaths ++ r.1 }, r.2)
  else if name == IgnoreElementName then
    let r := scanExcludes rest
    ({ pf with excludedPaths := pf.excludedPaths ++ r.1 }, r.2)
  else if name == LibrariesElementName then
    let r := readStringListScan LibraryElementName rest
    ({ pf with libraries := pf.libraries ++ r.1 }, r.2)
  else if name == PlatformElementName then
    let r := scanText rest
    (match r.1 with
     | some s => { pf with platform := s }
     | none => pf, r.2)
  else if name == SuppressionsElementName then
    let r := readSuppressionsScan rest
    ({ pf with suppressions := pf.suppressions ++ r.1 }, r.2)
  else if name == AddonsElementName then
    let r := readStringListScan AddonElementName rest
    ({ pf with addons := pf.addons ++ r.1 }, r.2)
  else if name == ToolsElementName then
    let r := readStringListScan ToolElementName rest
    ({ pf with
        clangAnalyzer := r.1.contains CLANG_ANALYZER
        clangTidy := r.1.contains CLANG_TIDY }, r.2)
  else if name == TagsElementName then
    let r := readStringListScan TagElementName rest
    ({ pf with tags := pf.tags ++ r.1 }, r.2)
  else
    (pf, rest)

/-- The main token loop of the streaming `ProjectFile::read`
(gui/projectfile.cpp lines 558-649), with its two state bits: a
StartElement named `project` sets both `insideProject` and
`projectTagFound`; while inside the project element a StartElement is
dispatched to its decoding routine; an EndElement named `project` leaves
the project element; everything else is skipped. -/
def readLoop (pf : ProjectFile) (insideProject projectTagFound : Bool) :
    List Token → Bool × ProjectFile
  | [] => (projectTagFound, pf)
  | Token.startElement name attrs :: rest =>
    let inside2 := if name == ProjectElementName then true else insideProject
    let found2 := if name == ProjectElementName then true else projectTagFound
    if inside2 then
      let r := dispatchStart pf name attrs rest
      readLoop r.1 inside2 found2 r.2
    else
      readLoop pf inside2 found2 rest
  | Token.endElement name :: rest =>
    readLoop pf (if name == ProjectElementName then false else insideProject)
      projectTagFound rest
  | Token.characters _ :: rest => readLoop pf insideProject projectTagFound rest
termination_by l => l.length
decreasing_by
  all_goals simp only [List.length_cons]
  all_goals try omega
  all_goals refine Nat.lt_succ_of_le ?_
  all_goals
    have hText : ∀ l : List Token, (scanText l).2.length ≤ l.length := by
      intro l
      induction l with
      | nil => simp [scanText]
      | cons t rest ih => cases t <;> simp [scanText] <;> omega
    have hAttr : ∀ (c w a : String) (l : List Token),
        (scanAttrList c w a l).2.length ≤ l.length := by
      intro c w a l
      induction l with
      | nil => simp [scanAttrList]
      | cons t rest ih =>
        cases t <;> simp only [scanAttrList, List.length_cons]
        case startElement n attrs =>
          by_cases h : (n == c) = true <;> simp [h] <;> omega
        case endElement n =>
          by_cases h : (n == w) = true <;> simp [h] <;> omega
        case characters s => omega
    have hExcl : ∀ l : List Token, (scanExcludes l).2.length ≤ l.length := by
      intro l
      induction l with
      | nil => simp [scanExcludes]
      | cons t rest ih =>
        cases t <;> simp only [scanExcludes, List.length_cons]
        case startElement n attrs =>
          by_cases h1 : (n == ExcludePathName) = true <;>
            by_cases h2 : (n == IgnorePathName) = true <;> simp [h1, h2] <;> omega
        case endElement n =>
          by_cases h1 : (n == IgnoreElementName) = true <;>
            by_cases h2 : (n == ExcludeElementName) = true <;> simp [h1, h2] <;> omega
        case characters s => omega
    have hSL : ∀ (en : String) (l : List Token),
        ((readStringListScan en l).2).length ≤ l.length := by
      intro en l
      induction l using readStringListScan.induct en with
      | case1 => simp [readStringListScan]
      | case2 n attrs h s rest2 l r heq ih =>
        rw [readStringListScan.eq_def]; simp [h, heq] at ih ⊢; omega
      | case3 n attrs h head rest2 hne ih =>
        cases head with
        | characters s => exact (hne s rfl).elim
        | startElement n2 a2 => rw [readStringListScan.eq_def]; simp [h] at ih ⊢; omega
        | endElement n2 => rw [readStringListScan.eq_def]; simp [h] at ih ⊢; omega
      | case4 n attrs h => rw [readStringListScan.eq_def]; simp [h]
      | case5 n attrs rest h ih => rw [readStringListScan.eq_def]; simp [h] at ih ⊢; try omega
      | case6 n rest h => rw [readStringListScan.eq_def]; simp [h]
      | case7 n rest h ih => rw [readStringListScan.eq_def]; simp [h] at ih ⊢; try omega
      | case8 t rest ih => rw [readStringListScan.eq_def]; simp at ih ⊢; omega
    have hSup : ∀ l : List Token, ((readSuppressionsScan l).2).length ≤ l.length := by
      intro l
      induction l using readSuppressionsScan.induct with
      | case1 => simp [readSuppressionsScan]
      | case2 n attrs h s rest2 l r heq ih =>
        rw [readSuppressionsScan.eq_def]; simp [h, heq] at ih ⊢; omega
      | case3 n attrs h head rest2 hne ih =>
        cases head with
        | characters s => exact (hne s rfl).elim
        | startElement n2 a2 => rw [readSuppressionsScan.eq_def]; simp [h] at ih ⊢; omega
        | endElement n2 => rw [readSuppressionsScan.eq_def]; simp [h] at ih ⊢; omega
      | case4 n attrs h => rw [readSuppressionsScan.eq_def]; simp [h]
      | case5 n attrs rest h ih => rw [readSuppressionsScan.eq_def]; simp [h] at ih ⊢; try omega
      | case6 n rest h => rw [readSuppressionsScan.eq_def]; simp [h]
      | case7 n rest h ih => rw [readSuppressionsScan.eq_def]; simp [h] at ih ⊢; try omega
      | case8 t rest ih => rw [readSuppressionsScan.eq_def]; simp at ih ⊢; omega
    have hDis : ∀ (pf : ProjectFile) (name : String) (attrs : List (String × String))
        (rest : List Token), (dispatchStart pf name attrs rest).2.length ≤ rest.length := by
      intro pf name attrs rest
      unfold dispatchStart
      by_cases h1 : (name == RootPathName) = true
      · rw [if_pos h1]
      rw [if_neg h1]
      by_cases h2 : (name == BuildDirElementName) = true
      · rw [if_pos h2]; exact hText rest
      rw [if_neg h2]
      by_cases h3 : (name == PathsElementName) = true
      · rw [if_pos h3]; exact hAttr _ _ _ rest
      rw [if_neg h3]
      by_cases h4 : (name == ImportProjectElementName) = true
      · rw [if_pos h4]; exact hText rest
      rw [if_neg h4]
      by_cases h5 : (name == AnalyzeAllVsConfigsElementName) = true
      · rw [if_pos h5]; exact hText rest
      rw [if_neg h5]
      by_cases h6 : (name == IncludeDirElementName) = true
      · rw [if_pos h6]; exact hAttr _ _ _ rest
      rw [if_neg h6]
      by_cases h7 : (name == DefinesElementName) = true
      · rw [if_pos h7]; exact hAttr _ _ _ rest
      rw [if_neg h7]
      by_cases h8 : (name == UndefinesElementName) = true
      · rw [if_pos h8]; exact hSL _ rest
      rw [if_neg h8]
      by_cases h9 : (name == ExcludeElementName) = true
      · rw [if_pos h9]; exact hExcl rest
      rw [if_neg h9]
      by_cases h10 : (name == IgnoreElementName) = true
      · rw [if_pos h10]; exact hExcl rest
      rw [if_neg h10]
      by_cases h11 : (name == LibrariesElementName) = true
      · rw [if_pos h11]; exact hSL _ rest
      rw [if_neg h11]
      by_cases h12 : (name == PlatformElementName) = true
      · rw [if_pos h12]; exact hText rest
      rw [if_neg h12]
      by_cases h13 : (name == SuppressionsElementName) = true
      · rw [if_pos h13]; exact hSup rest
      rw [if_neg h13]
      by_cases h14 : (name == AddonsElementName) = true
      · rw [if_pos h14]; exact hSL _ rest
      rw [if_neg h14]
      by_cases h15 : (name == ToolsElementName) = true
      · rw [if_pos h15]; exact hSL _ rest
      rw [if_neg h15]
      by_cases h16 : (name == TagsElementName) = true
      · rw [if_pos h16]; exact hSL _ rest
      rw [if_neg h16]
    exact hDis _ _ _ _

/-- `ProjectFile::read` of the streaming variant (gui/projectfile.cpp lines
544-653) on an already-opened token stream: reset the model (`clear`, which
keeps `mTags`), run the loop from outside the project element, return
`projectTagFound` and the resulting model. -/
def read (pf : ProjectFile) (l : List Token) : Bool × ProjectFile :=
  readLoop pf.clear false false l

end Qt

/-! ## Concrete models and documents used to settle the claims -/

/-- Round-trip input model: every optional scalar non-empty, every list
non-empty (including suppressions and both tool flags), two undefines. -/
def roundTripModel : ProjectFile :=
  { rootPath := "r", buildDir := "b", importProject := "i", analyzeAllVsConfigs := true
    includeDirs := ["d"], defines := ["D"], undefines := ["u1", "u2"], paths := ["c"]
    excludedPaths := ["e"], libraries := ["l"], platform := "p"
    suppressions := [{ errorId := "id", fileName := "f", lineNumber := 3, symbolName := "s" }]
    addons := ["a"], clangAnalyzer := true, clangTidy := true, tags := ["t"] }

/-- A minimal well-formed document: just the project root element. -/
def emptyProjectDoc : XElem :=
  { name := ProjectElementName, attrs := [], text := "", children := [] }

/-- A model with prior content only in the tags list. -/
def staleTagsModel : ProjectFile := { tags := ["x"] }

/-- A model with prior non-default content (build dir). -/
def nonDefaultModel : ProjectFile := { buildDir := "x" }

/-- Exclusion entry `p` under the deprecated legacy wrapper `ignore`. -/
def ignoreDoc : XElem :=
  { name := ProjectElementName, attrs := [], text := "",
    children := [{ name := IgnoreElementName, attrs := [], text := "",
                   children := [{ name := IgnorePathName,
                                  attrs := [(IgnorePathNameAttrib, "p")],
                                  text := "", children := [] }] }] }

/-- The equivalent exclusion entry `p` under the current wrapper `exclude`. -/
def excludeDoc : XElem :=
  { name := ProjectElementName, attrs := [], text := "",
    children := [{ name := ExcludeElementName, attrs := [], text := "",
                   children := [{ name := ExcludePathName,
                                  attrs := [(ExcludePathNameAttrib, "p")],
                                  text := "", children := [] }] }] }

/-- A project document whose only child is the analyze-all-vs-configs
element with the given text. -/
def avvcDoc (t : String) : XElem :=
  { name := ProjectElementName, attrs := [], text := "",
    children := [{ name := AnalyzeAllVsConfigsElementName, attrs := [],
                   text := t, children := [] }] }

/-- Attributed-list document: an includedir section whose first `dir` child
has an empty name attribute, and a paths section whose first `dir` child
has no name attribute at all. -/
def attrListDoc : XElem :=
  { name := ProjectElementName, attrs := [], text := "",
    children :=
      [{ name := IncludeDirElementName, attrs := [], text := "",
         children := [{ name := DirElementName, attrs := [(DirNameAttrib, "")],
                        text := "", children := [] },
                      { name := DirElementName, attrs := [(DirNameAttrib, "a")],
                        text := "", children := [] }] },
       { name := PathsElementName, attrs := [], text := "",
         children := [{ name := PathName, attrs := [], text := "", children := [] },
                      { name := PathName, attrs := [(PathNameAttrib, "b")],
                        text := "", children := [] }] }] }

/-- Text-list document: an addons section with one empty `addon` child (no
text) followed by one with text. -/
def textListDoc : XElem :=
  { name := ProjectElementName, attrs := [], text := "",
    children :=
      [{ name := AddonsElementName, attrs := [], text := "",
         children := [{ name := AddonElementName, attrs := [], text := "", children := [] },
                      { name := AddonElementName, attrs := [], text := "x", children := [] }] }] }

/-- A well-formed document whose root is not the project element, but which
contains a nested project element. -/
def nestedProjectDoc : XElem :=
  { name := "foo", attrs := [], text := "",
    children := [{ name := ProjectElementName, attrs := [], text := "", children := [] }] }

/-- Whether a token is the start tag of a project element. -/
def isProjectStart : Token → Bool
  | Token.startElement n _ => n == ProjectElementName
  | _ => false

/-! ## Theorems

First the token-consumption bounds of the streaming scanners (also proved
inline in the termination argument of `readLoop`), then the state-machine
characterization of `projectTagFound`, then the claims. -/

namespace Qt

theorem scanText_length (l : List Token) : (scanText l).2.length ≤ l.length := by
  induction l with
  | nil => simp [scanText]
  | cons t rest ih => cases t <;> simp [scanText] <;> omega

theorem scanAttrList_length (c w a : String) (l : List Token) :
    (scanAttrList c w a l).2.length ≤ l.length := by
  induction l with
  | nil => simp [scanAttrList]
  | cons t rest ih =>
    cases t <;> simp only [scanAttrList, List.length_cons]
    case startElement n attrs =>
      by_cases h : (n == c) = true <;> simp [h] <;> omega
    case endElement n =>
      by_cases h : (n == w) = true <;> simp [h] <;> omega
    case characters s => omega

theorem scanExcludes_length (l : List Token) : (scanExcludes l).2.length ≤ l.length := by
  induction l with
  | nil => simp [scanExcludes]
  | cons t rest ih =>
    cases t <;> simp only [scanExcludes, List.length_cons]
    case startElement n attrs =>
      by_cases h1 : (n == ExcludePathName) = true <;>
        by_cases h2 : (n == IgnorePathName) = true <;> simp [h1, h2] <;> omega
    case endElement n =>
      by_cases h1 : (n == IgnoreElementName) = true <;>
        by_cases h2 : (n == ExcludeElementName) = true <;> simp [h1, h2] <;> omega
    case characters s => omega

theorem readStringListScan_length (en : String) (l : List Token) :
    ((readStringListScan en l).2).length ≤ l.length := by
  induction l using readStringListScan.induct en with
  | case1 => simp [readStringListScan]
  | case2 n attrs h s rest2 l r heq ih =>
    rw [readStringListScan.eq_def]; simp [h, heq] at ih ⊢; omega
  | case3 n attrs h head rest2 hne ih =>
    cases head with
    | characters s => exact (hne s rfl).elim
    | startElement n2 a2 => rw [readStringListScan.eq_def]; simp [h] at ih ⊢; omega
    | endElement n2 => rw [readStringListScan.eq_def]; simp [h] at ih ⊢; omega
  | case4 n attrs h => rw [readStringListScan.eq_def]; simp [h]
  | case5 n attrs rest h ih => rw [readStringListScan.eq_def]; simp [h] at ih ⊢; try omega
  | case6 n rest h => rw [readStringListScan.eq_def]; simp [h]
  | case7 n rest h ih => rw [readStringListScan.eq_def]; simp [h] at ih ⊢; try omega
  | case8 t rest ih => rw [readStringListScan.eq_def]; simp at ih ⊢; omega

theorem readSuppressionsScan_length (l : List Token) :
    ((readSuppressionsScan l).2).length ≤ l.length := by
  induction l using readSuppressionsScan.induct with
  | case1 => simp [readSuppressionsScan]
  | case2 n attrs h s rest2 l r heq ih =>
    rw [readSuppressionsScan.eq_def]; simp [h, heq] at ih ⊢; omega
  | case3 n attrs h head rest2 hne ih =>
    cases head with
    | characters s => exact (hne s rfl).elim
    | startElement n2 a2 => rw [readSuppressionsScan.eq_def]; simp [h] at ih ⊢; omega
    | endElement n2 => rw [readSuppressionsScan.eq_def]; simp [h] at ih ⊢; omega
  | case4 n attrs h => rw [readSuppressionsScan.eq_def]; simp [h]
  | case5 n attrs rest h ih => rw [readSuppressionsScan.eq_def]; simp [h] at ih ⊢; try omega
  | case6 n rest h => rw [readSuppressionsScan.eq_def]; simp [h]
  | case7 n rest h ih => rw [readSuppressionsScan.eq_def]; simp [h] at ih ⊢; try omega
  | case8 t rest ih => rw [readSuppressionsScan.eq_def]; simp at ih ⊢; omega

theorem dispatchStart_length (pf : ProjectFile) (name : String)
    (attrs : List (String × String)) (rest : List Token) :
    (dispatchStart pf name attrs rest).2.length ≤ rest.length := by
  unfold dispatchStart
  by_cases h1 : (name == RootPathName) = true
  · rw [if_pos h1]
  rw [if_neg h1]
  by_cases h2 : (name == BuildDirElementName) = true
  · rw [if_pos h2]; exact scanText_length rest
  rw [if_neg h2]
  by_cases h3 : (name == PathsElementName) = true
  · rw [if_pos h3]; exact scanAttrList_length _ _ _ rest
  rw [if_neg h3]
  by_cases h4 : (name == ImportProjectElementName) = true
  · rw [if_pos h4]; exact scanText_length rest
  rw [if_neg h4]
  by_cases h5 : (name == AnalyzeAllVsConfigsElementName) = true
  · rw [if_pos h5]; exact scanText_length rest
  rw [if_neg h5]
  by_cases h6 : (name == IncludeDirElementName) = true
  · rw [if_pos h6]; exact scanAttrList_length _ _ _ rest
  rw [if_neg h6]
  by_cases h7 : (name == DefinesElementName) = true
  · rw [if_pos h7]; exact scanAttrList_length _ _ _ rest
  rw [if_neg h7]
  by_cases h8 : (name == UndefinesElementName) = true
  · rw [if_pos h8]; exact readStringListScan_length _ rest
  rw [if_neg h8]
  by_cases h9 : (name == ExcludeElementName) = true
  · rw [if_pos h9]; exact scanExcludes_length rest
  rw [if_neg h9]
  by_cases h10 : (name == IgnoreElementName) = true
  · rw [if_pos h10]; exact scanExcludes_length rest
  rw [if_neg h10]
  by_cases h11 : (name == LibrariesElementName) = true
  · rw [if_pos h11]; exact readStringListScan_length _ rest
  rw [if_neg h11]
  by_cases h12 : (name == PlatformElementName) = true
  · rw [if_pos h12]; exact scanText_length rest
  rw [if_neg h12]
  by_cases h13 : (name == SuppressionsElementName) = true
  · rw [if_pos h13]; exact readSuppressionsScan_length rest
  rw [if_neg h13]
  by_cases h14 : (name == AddonsElementName) = true
  · rw [if_pos h14]; exact readStringListScan_length _ rest
  rw [if_neg h14]
  by_cases h15 : (name == ToolsElementName) = true
  · rw [if_pos h15]; exact readStringListScan_length _ rest
  rw [if_neg h15]
  by_cases h16 : (name == TagsElementName) = true
  · rw [if_pos h16]; exact readStringListScan_length _ rest
  rw [if_neg h16]

/-- Once `projectTagFound` is true it stays true: the loop never resets it. -/
theorem readLoop_found_true : ∀ (n : Nat) (l : List Token), l.length ≤ n →
    ∀ (pf : ProjectFile) (inside : Bool), (readLoop pf inside true l).1 = true := by
  intro n
  induction n with
  | zero =>
    intro l hl pf inside
    obtain rfl : l = [] := List.length_eq_zero.mp (Nat.le_zero.mp hl)
    simp [readLoop]
  | succ n ih =>
    intro l hl pf inside
    cases l with
    | nil => simp [readLoop]
    | cons t rest =>
      have hr : rest.length ≤ n := by simp only [List.length_cons] at hl; omega
      cases t with
      | startElement name attrs =>
        simp only [readLoop, ite_self]
        by_cases h : (name == ProjectElementName) = true
        · simp only [h, eq_self_iff_true, if_true]
          exact ih _ (le_trans (dispatchStart_length _ _ _ _) hr) _ _
        · simp only [h, Bool.false_eq_true, if_false]
          by_cases hi : inside = true
          · rw [if_pos hi]
            exact ih _ (le_trans (dispatchStart_length _ _ _ _) hr) _ _
          · rw [if_neg hi]
            exact ih _ hr _ _
      | endElement name =>
        simp only [readLoop]
        exact ih _ hr _ _
      | characters s =>
        simp only [readLoop]
        exact ih _ hr _ _

/-- Starting outside the project element with the flag unset, the loop
returns success exactly when a project start tag occurs in the stream:
sub-readers only run once inside the project element, so they can never
swallow the first project start tag. -/
theorem readLoop_found_iff : ∀ (n : Nat) (l : List Token), l.length ≤ n →
    ∀ (pf : ProjectFile), (readLoop pf false false l).1 = l.any isProjectStart := by
  intro n
  induction n with
  | zero =>
    intro l hl pf
    obtain rfl : l = [] := List.length_eq_zero.mp (Nat.le_zero.mp hl)
    simp [readLoop]
  | succ n ih =>
    intro l hl pf
    cases l with
    | nil => simp [readLoop]
    | cons t rest =>
      have hr : rest.length ≤ n := by simp only [List.length_cons] at hl; omega
      cases t with
      | startElement name attrs =>
        simp only [readLoop, List.any_cons, isProjectStart]
        by_cases h : (name == ProjectElementName) = true
        · simp only [h, eq_self_iff_true, if_true, Bool.true_or]
          exact readLoop_found_true _ _ (le_trans (dispatchStart_length _ _ _ _) hr) _ _
        · simp only [h, Bool.false_eq_true, if_false, Bool.false_or]
          simpa using ih _ hr pf
      | endElement name =>
        simp only [readLoop, List.any_cons, isProjectStart, ite_self, Bool.false_or]
        exact ih _ hr _
      | characters s =>
        simp only [readLoop, List.any_cons, isProjectStart, Bool.false_or]
        exact ih _ hr _

end Qt

/-! ## Claims -/

/-- C1 (code bug): writing the fully populated model `roundTripModel` (no
empty optional scalar, no empty list) and reading the document back with
the DOM variant does not restore it: the undefines loop advances with the
wrapper name `undefines` instead of the child name `undefine`
(gui/projectfile.cpp line 159), so of `["u1", "u2"]` only `"u1"` survives,
while every other field round-trips; the streaming read of the same
document restores the model exactly. -/
theorem c1_dom_roundtrip_drops_second_undefine :
    Dom.read ProjectFile.default (some (Dom.write roundTripModel))
      = (true, { roundTripModel with undefines := ["u1"] })
    ∧ (Dom.read ProjectFile.default (some (Dom.write roundTripModel))).2 ≠ roundTripModel
    ∧ Qt.read ProjectFile.default (XElem.tokens (Dom.write roundTripModel))
      = (true, roundTripModel) := by
  refine ⟨by decide, by decide, ?_⟩
  simp [Qt.read, Qt.readLoop, Qt.dispatchStart, Qt.scanText, Qt.scanAttrList,
    Qt.scanExcludes, Qt.readStringListScan, Qt.readSuppressionsScan, Qt.readRootPath,
    Qt.qToInt, parseInt, XElem.tokens, tokensList, attrLookup, charPointerToString,
    ProjectFile.clear, Dom.write, Dom.writeStringList, Dom.writeSuppression,
    roundTripModel, ProjectElementName, ProjectVersionAttrib, ProjectFileVersion,
    BuildDirElementName, ImportProjectElementName, AnalyzeAllVsConfigsElementName,
    IncludeDirElementName, DirElementName, DirNameAttrib, DefinesElementName,
    DefineName, DefineNameAttrib, UndefinesElementName, UndefineName,
    PathsElementName, PathName, PathNameAttrib, RootPathName, RootPathNameAttrib,
    IgnoreElementName, IgnorePathName, IgnorePathNameAttrib, ExcludeElementName,
    ExcludePathName, ExcludePathNameAttrib, LibrariesElementName, LibraryElementName,
    PlatformElementName, SuppressionsElementName, SuppressionElementName,
    SuppressionFileNameAttrib, SuppressionLineNumberAttrib, SuppressionSymbolNameAttrib,
    AddonElementName, AddonsElementName, ToolElementName, ToolsElementName,
    TagsElementName, TagElementName, CLANG_ANALYZER, CLANG_TIDY, NO_LINE]
  decide

/-- C2 (code bug): a read does not reset the tags list.  Reading the
minimal document `<project/>` into a model whose only prior content is
`tags = ["x"]` succeeds and leaves the stale tags in place in both
variants, because `clear()` (gui/projectfile.cpp lines 82-98 and 526-542)
clears every field except `mTags`. -/
theorem c2_read_keeps_stale_tags :
    Dom.read staleTagsModel (some emptyProjectDoc) = (true, staleTagsModel)
    ∧ staleTagsModel.tags ≠ ([] : List String)
    ∧ Qt.read staleTagsModel (XElem.tokens emptyProjectDoc) = (true, staleTagsModel) := by
  refine ⟨by decide, by decide, ?_⟩
  simp [Qt.read, Qt.readLoop, Qt.dispatchStart, Qt.scanText, Qt.scanAttrList,
    Qt.scanExcludes, Qt.readStringListScan, Qt.readSuppressionsScan, Qt.readRootPath,
    Qt.qToInt, parseInt, XElem.tokens, tokensList, attrLookup, charPointerToString,
    ProjectFile.clear, staleTagsModel, emptyProjectDoc, ProjectElementName,
    RootPathName, BuildDirElementName, PathsElementName, ImportProjectElementName,
    AnalyzeAllVsConfigsElementName, IncludeDirElementName, DefinesElementName,
    UndefinesElementName, ExcludeElementName, IgnoreElementName, LibrariesElementName,
    PlatformElementName, SuppressionsElementName, AddonsElementName, ToolsElementName,
    TagsElementName]

/-- C3 (corrected): when loading or parsing the file fails, the DOM
variant's read returns failure before touching the model
(gui/projectfile.cpp lines 106-108 precede the `clear()` on line 110), so
the model after the call is exactly the model before the call — it is in
its all-defaults state only if it already was. -/
theorem c3_failed_load_leaves_model_untouched (pf : ProjectFile) :
    Dom.read pf none = (false, pf) :=
  rfl

/-- C3 counterexample: reading unparseable input into a model whose build
dir is `"x"` reports failure but leaves the model with that prior content,
not in the all-defaults state the claim requires. -/
theorem c3_counterexample_prior_content_survives :
    (Dom.read nonDefaultModel none).1 = false
    ∧ (Dom.read nonDefaultModel none).2 ≠ ProjectFile.default := by
  decide

/-- C4 (code bug): the deprecated legacy wrapper `ignore` is decoded only
by the streaming variant.  On equivalent single-entry documents the
streaming read yields `["p"]` for both wrappers, but the DOM read
(gui/projectfile.cpp lines 172-179) dispatches only on `exclude` and
leaves `excludedPaths` empty for the `ignore` document — the two documents
do not decode to identical lists. -/
theorem c4_dom_read_drops_legacy_ignore_element :
    (Dom.read ProjectFile.default (some ignoreDoc)).2.excludedPaths = []
    ∧ (Dom.read ProjectFile.default (some excludeDoc)).2.excludedPaths = ["p"]
    ∧ (Qt.read ProjectFile.default (XElem.tokens ignoreDoc)).2.excludedPaths = ["p"]
    ∧ (Qt.read ProjectFile.default (XElem.tokens excludeDoc)).2.excludedPaths = ["p"] := by
  refine ⟨by decide, by decide, ?_, ?_⟩
  all_goals
    simp [Qt.read, Qt.readLoop, Qt.dispatchStart, Qt.scanText, Qt.scanAttrList,
      Qt.scanExcludes, Qt.readStringListScan, Qt.readSuppressionsScan, Qt.readRootPath,
      Qt.qToInt, parseInt, XElem.tokens, tokensList, attrLookup, charPointerToString,
      ProjectFile.clear, ignoreDoc, excludeDoc, ProjectElementName,
      RootPathName, BuildDirElementName, PathsElementName, ImportProjectElementName,
      AnalyzeAllVsConfigsElementName, IncludeDirElementName, DefinesElementName,
      UndefinesElementName, ExcludeElementName, ExcludePathName, ExcludePathNameAttrib,
      IgnoreElementName, IgnorePathName, IgnorePathNameAttrib, LibrariesElementName,
      PlatformElementName, SuppressionsElementName, AddonsElementName, ToolsElementName,
      TagsElementName]
  all_goals decide

/-- C6 (code bug): in the attributed-list decodings the streaming variant
skips entries whose name attribute is empty or missing, but the DOM
variant (gui/projectfile.cpp lines 136-143, 163-170) appends the attribute
value unconditionally: a `dir` child with an empty name attribute and one
with no name attribute both contribute `""` to the list instead of being
skipped. -/
theorem c6_dom_read_appends_empty_attr_entries :
    (Dom.read ProjectFile.default (some attrListDoc)).2.includeDirs = ["", "a"]
    ∧ (Dom.read ProjectFile.default (some attrListDoc)).2.paths = ["", "b"]
    ∧ (Qt.read ProjectFile.default (XElem.tokens attrListDoc)).2.includeDirs = ["a"]
    ∧ (Qt.read ProjectFile.default (XElem.tokens attrListDoc)).2.paths = ["b"] := by
  refine ⟨by decide, by decide, ?_, ?_⟩
  all_goals
    simp [Qt.read, Qt.readLoop, Qt.dispatchStart, Qt.scanText, Qt.scanAttrList,
      Qt.scanExcludes, Qt.readStringListScan, Qt.readSuppressionsScan, Qt.readRootPath,
      Qt.qToInt, parseInt, XElem.tokens, tokensList, attrLookup, charPointerToString,
      ProjectFile.clear, attrListDoc, ProjectElementName,
      RootPathName, BuildDirElementName, PathsElementName, PathName, PathNameAttrib,
      ImportProjectElementName, AnalyzeAllVsConfigsElementName, IncludeDirElementName,
      DirElementName, DirNameAttrib, DefinesElementName,
      UndefinesElementName, ExcludeElementName, IgnoreElementName, LibrariesElementName,
      PlatformElementName, SuppressionsElementName, AddonsElementName, ToolsElementName,
      TagsElementName]
  all_goals decide

/-- C7 (code bug): in the text-list decodings the streaming variant skips
a child with no text, but the DOM variant (gui/projectfile.cpp lines
204-211) appends the child's (null) text unconditionally: an empty
`addon` child contributes `""` to the list instead of being skipped. -/
theorem c7_dom_read_appends_empty_text_entries :
    (Dom.read ProjectFile.default (some textListDoc)).2.addons = ["", "x"]
    ∧ (Qt.read ProjectFile.default (XElem.tokens textListDoc)).2.addons = ["x"] := by
  refine ⟨by decide, ?_⟩
  simp [Qt.read, Qt.readLoop, Qt.dispatchStart, Qt.scanText, Qt.scanAttrList,
    Qt.scanExcludes, Qt.readStringListScan, Qt.readSuppressionsScan, Qt.readRootPath,
    Qt.qToInt, parseInt, XElem.tokens, tokensList, attrLookup, charPointerToString,
    ProjectFile.clear, textListDoc, ProjectElementName,
    RootPathName, BuildDirElementName, PathsElementName, ImportProjectElementName,
    AnalyzeAllVsConfigsElementName, IncludeDirElementName, DefinesElementName,
    UndefinesElementName, ExcludeElementName, IgnoreElementName, LibrariesElementName,
    PlatformElementName, SuppressionsElementName, AddonsElementName, AddonElementName,
    ToolsElementName, TagsElementName]

/-- C5 (confirmed): the analyze-all-vs-configs decoding.  A document
without the element yields the default `true`; a document carrying the
element with text `s` yields exactly `s == "true"` — so `"true"` gives
`true` and any other text (`"false"`, `"1"`, garbage) gives `false` — in
both variants. -/
theorem c5_analyze_all_vs_configs_decoding (s : String) (h : s ≠ "") :
    (Dom.read ProjectFile.default (some emptyProjectDoc)).2.analyzeAllVsConfigs = true
    ∧ (Qt.read ProjectFile.default (XElem.tokens emptyProjectDoc)).2.analyzeAllVsConfigs = true
    ∧ (Dom.read ProjectFile.default (some (avvcDoc s))).2.analyzeAllVsConfigs = (s == "true")
    ∧ (Qt.read ProjectFile.default (XElem.tokens (avvcDoc s))).2.analyzeAllVsConfigs
      = (s == "true") := by
  refine ⟨by decide, ?_, ?_, ?_⟩
  · simp [Qt.read, Qt.readLoop, Qt.dispatchStart, Qt.scanText, Qt.scanAttrList,
      Qt.scanExcludes, Qt.readStringListScan, Qt.readSuppressionsScan, Qt.readRootPath,
      XElem.tokens, tokensList, attrLookup, charPointerToString,
      ProjectFile.clear, emptyProjectDoc, ProjectElementName,
      RootPathName, BuildDirElementName, PathsElementName, ImportProjectElementName,
      AnalyzeAllVsConfigsElementName, IncludeDirElementName, DefinesElementName,
      UndefinesElementName, ExcludeElementName, IgnoreElementName, LibrariesElementName,
      PlatformElementName, SuppressionsElementName, AddonsElementName, ToolsElementName,
      TagsElementName]
  · simp [Dom.read, Dom.firstChildElement, Dom.xmlBoolText, Dom.xmlGetText,
      Dom.xmlAttribute, Dom.xmlAttributeOpt, Dom.xmlIntAttribute, Dom.readSuppression,
      Dom.siblingChain, Dom.nextSiblingChain, attrLookup, charPointerToString,
      ProjectFile.clear, avvcDoc, h, ProjectElementName,
      RootPathName, BuildDirElementName, PathsElementName, ImportProjectElementName,
      AnalyzeAllVsConfigsElementName, IncludeDirElementName, DefinesElementName,
      UndefinesElementName, ExcludeElementName, IgnoreElementName, LibrariesElementName,
      PlatformElementName, SuppressionsElementName, AddonsElementName, ToolsElementName,
      TagsElementName]
  · simp [Qt.read, Qt.readLoop, Qt.dispatchStart, Qt.scanText, Qt.scanAttrList,
      Qt.scanExcludes, Qt.readStringListScan, Qt.readSuppressionsScan, Qt.readRootPath,
      XElem.tokens, tokensList, attrLookup, charPointerToString,
      ProjectFile.clear, avvcDoc, h, ProjectElementName,
      RootPathName, BuildDirElementName, PathsElementName, ImportProjectElementName,
      AnalyzeAllVsConfigsElementName, IncludeDirElementName, DefinesElementName,
      UndefinesElementName, ExcludeElementName, IgnoreElementName, LibrariesElementName,
      PlatformElementName, SuppressionsElementName, AddonsElementName, ToolsElementName,
      TagsElementName]

/-- C5 witness: at text `"1"` both variants decode `false` (`"1" == "true"`
evaluates to `false`), and the element-free document decodes `true`. -/
theorem c5_analyze_all_vs_configs_decoding_witness :
    ("1" : String) ≠ "" ∧
    ((Dom.read ProjectFile.default (some emptyProjectDoc)).2.analyzeAllVsConfigs = true
     ∧ (Qt.read ProjectFile.default (XElem.tokens emptyProjectDoc)).2.analyzeAllVsConfigs = true
     ∧ (Dom.read ProjectFile.default (some (avvcDoc "1"))).2.analyzeAllVsConfigs = ("1" == "true")
     ∧ (Qt.read ProjectFile.default (XElem.tokens (avvcDoc "1"))).2.analyzeAllVsConfigs
       = ("1" == "true")) :=
  ⟨by decide, c5_analyze_all_vs_configs_decoding "1" (by decide)⟩

/-- C8 (corrected, amended): success of the two reads on a well-formed
document.  The DOM read succeeds iff the document's root element is the
project element; the streaming read succeeds iff a project start tag
occurs anywhere in the token stream — a nested project element also
counts.  In both characterizations the result depends only on where
project tags occur, so the presence or absence of any sub-element never
changes the outcome. -/
theorem c8_read_success_characterization (pf pf2 : ProjectFile) (doc : XElem) :
    (Dom.read pf (some doc)).1 = (doc.name == ProjectElementName)
    ∧ (Qt.read pf2 (XElem.tokens doc)).1 = (XElem.tokens doc).any isProjectStart := by
  constructor
  · by_cases h : (doc.name == ProjectElementName) = true
    · simp [Dom.read, h]
    · simp [Dom.read, h]
  · simpa [Qt.read] using
      Qt.readLoop_found_iff (XElem.tokens doc).length (XElem.tokens doc) le_rfl pf2.clear

/-- C8 counterexample: `nestedProjectDoc` is well-formed, its root element
is `foo` (not `project`), yet the streaming read reports success, because
the state machine sets `projectTagFound` on a project start tag at any
depth; the DOM read fails on the same document. -/
theorem c8_counterexample_nested_project_accepted :
    (Qt.read ProjectFile.default (XElem.tokens nestedProjectDoc)).1 = true
    ∧ nestedProjectDoc.name ≠ ProjectElementName
    ∧ (Dom.read ProjectFile.default (some nestedProjectDoc)).1 = false := by
  refine ⟨?_, by decide, by decide⟩
  simp [Qt.read, Qt.readLoop, Qt.dispatchStart, Qt.scanText, Qt.scanAttrList,
    Qt.scanExcludes, Qt.readStringListScan, Qt.readSuppressionsScan, Qt.readRootPath,
    XElem.tokens, tokensList, attrLookup, charPointerToString,
    ProjectFile.clear, nestedProjectDoc, ProjectElementName,
    RootPathName, BuildDirElementName, PathsElementName, ImportProjectElementName,
    AnalyzeAllVsConfigsElementName, IncludeDirElementName, DefinesElementName,
    UndefinesElementName, ExcludeElementName, IgnoreElementName, LibrariesElementName,
    PlatformElementName, SuppressionsElementName, AddonsElementName, ToolsElementName,
    TagsElementName]

/-- Membership in a conditionally-emitted section. -/
theorem exists_mem_ite_nil {c : Prop} [Decidable c] {l : List XElem} {p : XElem → Prop} :
    (∃ x ∈ (if c then ([] : List XElem) else l), p x) ↔ ¬c ∧ ∃ x ∈ l, p x := by
  by_cases h : c <;> simp [h]

/-- C9 (confirmed): structure of the written document.  For every model,
the written project element contains each optional-scalar child exactly
when that scalar is non-empty, contains each list wrapper exactly when the
list is non-empty (the tools wrapper exactly when one of the two tool
flags is set, since the tools list is derived from them at write time),
and always contains the analyze-all-vs-configs element with text `"true"`
or `"false"` matching the flag. -/
theorem c9_write_omits_empty_sections (pf : ProjectFile) :
    ((∃ c ∈ (Dom.write pf).children, c.name = RootPathName) ↔ pf.rootPath ≠ "")
    ∧ ((∃ c ∈ (Dom.write pf).children, c.name = BuildDirElementName) ↔ pf.buildDir ≠ "")
    ∧ ((∃ c ∈ (Dom.write pf).children, c.name = PlatformElementName) ↔ pf.platform ≠ "")
    ∧ ((∃ c ∈ (Dom.write pf).children, c.name = ImportProjectElementName)
        ↔ pf.importProject ≠ "")
    ∧ (∃ c ∈ (Dom.write pf).children, c.name = AnalyzeAllVsConfigsElementName
        ∧ c.text = (if pf.analyzeAllVsConfigs then "true" else "false"))
    ∧ ((∃ c ∈ (Dom.write pf).children, c.name = IncludeDirElementName)
        ↔ pf.includeDirs ≠ [])
    ∧ ((∃ c ∈ (Dom.write pf).children, c.name = DefinesElementName) ↔ pf.defines ≠ [])
    ∧ ((∃ c ∈ (Dom.write pf).children, c.name = UndefinesElementName) ↔ pf.undefines ≠ [])
    ∧ ((∃ c ∈ (Dom.write pf).children, c.name = PathsElementName) ↔ pf.paths ≠ [])
    ∧ ((∃ c ∈ (Dom.write pf).children, c.name = ExcludeElementName)
        ↔ pf.excludedPaths ≠ [])
    ∧ ((∃ c ∈ (Dom.write pf).children, c.name = LibrariesElementName) ↔ pf.libraries ≠ [])
    ∧ ((∃ c ∈ (Dom.write pf).children, c.name = SuppressionsElementName)
        ↔ pf.suppressions ≠ [])
    ∧ ((∃ c ∈ (Dom.write pf).children, c.name = AddonsElementName) ↔ pf.addons ≠ [])
    ∧ ((∃ c ∈ (Dom.write pf).children, c.name = TagsElementName) ↔ pf.tags ≠ [])
    ∧ ((∃ c ∈ (Dom.write pf).children, c.name = ToolsElementName)
        ↔ (pf.clangAnalyzer = true ∨ pf.clangTidy = true)) := by
  refine ⟨?_, ?_, ?_, ?_, ?_, ?_, ?_, ?_, ?_, ?_, ?_, ?_, ?_, ?_, ?_⟩
  all_goals try
    simp [Dom.write, Dom.writeStringList, Dom.writeSuppression, exists_mem_ite_nil,
      and_assoc, or_and_right, exists_or, exists_and_left, exists_eq_left,
      ProjectElementName, ProjectVersionAttrib, ProjectFileVersion,
      RootPathName, RootPathNameAttrib, BuildDirElementName, PlatformElementName,
      ImportProjectElementName, AnalyzeAllVsConfigsElementName,
      IncludeDirElementName, DefinesElementName, UndefinesElementName, UndefineName,
      PathsElementName, ExcludeElementName, LibrariesElementName, LibraryElementName,
      SuppressionsElementName, AddonsElementName, AddonElementName,
      ToolsElementName, ToolElementName, TagsElementName, TagElementName]
  all_goals by_cases ha : pf.clangAnalyzer <;> by_cases ht : pf.clangTidy <;>
    simp [Dom.write, Dom.writeStringList, Dom.writeSuppression, exists_mem_ite_nil, ha, ht,
      and_assoc, or_and_right, exists_or, exists_and_left, exists_eq_left,
      ProjectElementName, RootPathName, BuildDirElementName, PlatformElementName,
      ImportProjectElementName, AnalyzeAllVsConfigsElementName,
      IncludeDirElementName, DefinesElementName, UndefinesElementName, UndefineName,
      PathsElementName, ExcludeElementName, LibrariesElementName, LibraryElementName,
      SuppressionsElementName, AddonsElementName, AddonElementName,
      ToolsElementName, ToolElementName, TagsElementName, TagElementName]

/-- C10 (confirmed): `getClangAnalyzer()` returns `false` for every model
state, even immediately after `setClangAnalyzer(true)` — its body is
`return false; //mClangAnalyzer;` — while the stored flag is set by the
setter and still drives both `getAddonsAndTools()` (which appends the
analyzer tool name) and `write` (which then emits the tools section). -/
theorem c10_clang_analyzer_getter_constant_false (pf : ProjectFile) :
    pf.getClangAnalyzer = false
    ∧ (pf.setClangAnalyzer true).getClangAnalyzer = false
    ∧ (pf.setClangAnalyzer true).clangAnalyzer = true
    ∧ (pf.setClangAnalyzer true).getAddonsAndTools
      = pf.addons ++ [CLANG_ANALYZER] ++ (if pf.clangTidy then [CLANG_TIDY] else [])
    ∧ (∃ c ∈ (Dom.write (pf.setClangAnalyzer true)).children, c.name = ToolsElementName) := by
  refine ⟨rfl, rfl, rfl, ?_, ?_⟩
  · simp [ProjectFile.getAddonsAndTools, ProjectFile.setClangAnalyzer]
  · simp [Dom.write, Dom.writeStringList, Dom.writeSuppression, exists_mem_ite_nil,
      ProjectFile.setClangAnalyzer,
      and_assoc, or_and_right, exists_or, exists_and_left, exists_eq_left,
      ProjectElementName, RootPathName, BuildDirElementName, PlatformElementName,
      ImportProjectElementName, AnalyzeAllVsConfigsElementName,
      IncludeDirElementName, DefinesElementName, UndefinesElementName, UndefineName,
      PathsElementName, ExcludeElementName, LibrariesElementName, LibraryElementName,
      SuppressionsElementName, AddonsElementName, AddonElementName,
      ToolsElementName, ToolElementName, TagsElementName, TagElementName]
